import Mathlib

/-!
# KochoCORS: the request pipeline of `main.go`

A shallow embedding of `loadConfig`, `getCORSOrigin` and `handleProxyRequest`
together with the parts of the Go standard library they call (`strings`,
`net/textproto`, `net/url`, `net/http`, `strconv`).

Go strings are byte sequences and are modelled as `List UInt8`; `str` gives the
UTF-8 bytes of a literal.  The library functions follow the Go 1.22 sources; a
Go error is modelled as `none`.  The network (the result of `client.Do`) and
the rate limiter's clock (the result of `limiter.Allow()`) are inputs of the
model.
-/

namespace KochoCORS

/-! ## Go strings -/

/-- Go `string`: an immutable sequence of bytes. -/
abbrev Str := List UInt8

/-- UTF-8 encoding of one code point. -/
def utf8Encode (c : Char) : Str :=
  let n := c.toNat
  if n < 0x80 then [UInt8.ofNat n]
  else if n < 0x800 then [UInt8.ofNat (0xC0 + n / 64), UInt8.ofNat (0x80 + n % 64)]
  else if n < 0x10000 then
    [UInt8.ofNat (0xE0 + n / 4096), UInt8.ofNat (0x80 + n / 64 % 64), UInt8.ofNat (0x80 + n % 64)]
  else
    [UInt8.ofNat (0xF0 + n / 262144), UInt8.ofNat (0x80 + n / 4096 % 64),
     UInt8.ofNat (0x80 + n / 64 % 64), UInt8.ofNat (0x80 + n % 64)]

/-- The bytes of a string literal. -/
def str (s : String) : Str := s.data.flatMap utf8Encode

/-- The byte of an ASCII character literal. -/
def ch (c : Char) : UInt8 := UInt8.ofNat c.toNat

/-- Go `strings.HasPrefix`: `len(s) >= len(p) && s[:len(p)] == p`. -/
def HasPrefix (s p : Str) : Bool :=
  decide (p.length ≤ s.length) && decide (s.take p.length = p)

/-- Go `strings.HasSuffix`: `len(s) >= len(suffix) && s[len(s)-len(suffix):] == suffix`. -/
def HasSuffix (s suffix : Str) : Bool :=
  decide (suffix.length ≤ s.length) && decide (s.drop (s.length - suffix.length) = suffix)

/-- Go `strings.Contains` for a one-byte substring. -/
def ContainsByte (s : Str) (c : UInt8) : Bool := s.any (fun b => b = c)

/-- Go `strings.Count` for a one-byte substring. -/
def CountByte (s : Str) (c : UInt8) : Nat := (s.filter (fun b => b = c)).length

/-- Go `strings.Cut` for a one-byte separator: the text before the first
occurrence, the text after it, and whether it occurs. -/
def Cut : Str → UInt8 → Str × Str × Bool
  | [], _ => ([], [], false)
  | b :: s, sep =>
    if b = sep then ([], s, true)
    else
      let r := Cut s sep
      if r.2.2 then (b :: r.1, r.2.1, true) else (b :: s, [], false)

/-- Go `strings.LastIndexByte`: the index of the last occurrence, if any. -/
def LastIndexByte (s : Str) (c : UInt8) : Option Nat :=
  match s.reverse.indexOf? c with
  | some i => some (s.length - 1 - i)
  | none => none

/-- Lower-casing of the ASCII letters.  It is Go `strings.ToLower` on ASCII text
(header field names and URL schemes are ASCII).  On other input Go additionally
maps non-ASCII letters; the only non-ASCII code points it maps to an ASCII
letter are U+212A (to `k`) and U+0130 (to `i`), and neither letter occurs in
`host` or `access-control-`, so the two comparisons `handleProxyRequest` makes
on the result are the same under both mappings. -/
def ToLower (s : Str) : Str :=
  s.map (fun b => if ch 'A' ≤ b ∧ b ≤ ch 'Z' then b + 32 else b)

/-! ### UTF-8 decoding and `strings.TrimSpace` -/

/-- Go `utf8.RuneError`. -/
def RuneError : Nat := 0xFFFD

/-- A continuation byte `10xxxxxx`. -/
def isCont (b : UInt8) : Bool := decide (0x80 ≤ b) && decide (b ≤ 0xBF)

/-- Go `utf8.DecodeRuneInString`: the first rune of `s` and its width in bytes;
`(RuneError, 0)` on the empty string and `(RuneError, 1)` on an invalid
encoding. -/
def DecodeRune (s : Str) : Nat × Nat :=
  match s with
  | [] => (RuneError, 0)
  | b0 :: rest =>
    if b0 < 0x80 then (b0.toNat, 1)
    else if 0xC2 ≤ b0 ∧ b0 ≤ 0xDF then
      match rest with
      | b1 :: _ =>
        if isCont b1 then (b0.toNat % 32 * 64 + b1.toNat % 64, 2) else (RuneError, 1)
      | [] => (RuneError, 1)
    else if 0xE0 ≤ b0 ∧ b0 ≤ 0xEF then
      match rest with
      | b1 :: b2 :: _ =>
        let lo : UInt8 := if b0 = 0xE0 then 0xA0 else 0x80
        let hi : UInt8 := if b0 = 0xED then 0x9F else 0xBF
        if lo ≤ b1 ∧ b1 ≤ hi ∧ isCont b2 = true then
          (b0.toNat % 16 * 4096 + b1.toNat % 64 * 64 + b2.toNat % 64, 3)
        else (RuneError, 1)
      | _ => (RuneError, 1)
    else if 0xF0 ≤ b0 ∧ b0 ≤ 0xF4 then
      match rest with
      | b1 :: b2 :: b3 :: _ =>
        let lo : UInt8 := if b0 = 0xF0 then 0x90 else 0x80
        let hi : UInt8 := if b0 = 0xF4 then 0x8F else 0xBF
        if lo ≤ b1 ∧ b1 ≤ hi ∧ isCont b2 = true ∧ isCont b3 = true then
          (b0.toNat % 8 * 262144 + b1.toNat % 64 * 4096 + b2.toNat % 64 * 64 + b3.toNat % 64, 4)
        else (RuneError, 1)
      | _ => (RuneError, 1)
    else (RuneError, 1)

/-- Go `utf8.DecodeLastRuneInString`: the last rune of `s` and its width.  The
start of the last rune is searched among the up to three bytes before the last
one; the rune decoded from there must end exactly at the end of `s`. -/
def DecodeLastRune (s : Str) : Nat × Nat :=
  match s.reverse with
  | [] => (RuneError, 0)
  | last :: before =>
    if last < 0x80 then (last.toNat, 1)
    else
      match (before.take 3).findIdx? (fun b => !isCont b) with
      | none => (RuneError, 1)
      | some j =>
        let r := DecodeRune (s.drop (s.length - (j + 2)))
        if r.2 = j + 2 then r else (RuneError, 1)

/-- Go `unicode.IsSpace`. -/
def IsSpace (r : Nat) : Bool :=
  if r ≤ 0xFF then
    decide (r = 0x09 ∨ r = 0x0A ∨ r = 0x0B ∨ r = 0x0C ∨ r = 0x0D ∨ r = 0x20 ∨ r = 0x85 ∨ r = 0xA0)
  else
    decide (r = 0x1680 ∨ (0x2000 ≤ r ∧ r ≤ 0x200A) ∨ r = 0x2028 ∨ r = 0x2029 ∨ r = 0x202F
      ∨ r = 0x205F ∨ r = 0x3000)

/-- Go `strings.TrimLeftFunc(s, unicode.IsSpace)`; the first argument bounds the
number of runes removed. -/
def trimLeftSpace : Nat → Str → Str
  | 0, s => s
  | n + 1, s =>
    match s with
    | [] => []
    | _ :: _ =>
      let r := DecodeRune s
      if IsSpace r.1 then trimLeftSpace n (s.drop r.2) else s

/-- Go `strings.TrimRightFunc(s, unicode.IsSpace)`; the first argument bounds the
number of runes removed. -/
def trimRightSpace : Nat → Str → Str
  | 0, s => s
  | n + 1, s =>
    match s with
    | [] => []
    | _ :: _ =>
      let r := DecodeLastRune s
      if IsSpace r.1 then trimRightSpace n (s.take (s.length - r.2)) else s

/-- Go `strings.TrimSpace`: `s` without its leading and trailing white space
(white space as defined by Unicode). -/
def TrimSpace (s : Str) : Str :=
  let t := trimLeftSpace s.length s
  trimRightSpace t.length t

/-- Go `strings.Index`: the index of the first occurrence of `sep` in `s`. -/
def Index : Str → Str → Option Nat
  | [], sep => if sep = [] then some 0 else none
  | b :: s, sep =>
    if HasPrefix (b :: s) sep then some 0
    else (Index s sep).map (· + 1)

/-- The loop of Go `strings.Split` for a non-empty separator; the first argument
bounds the number of pieces. -/
def splitLoop : Nat → Str → Str → List Str
  | 0, s, _ => [s]
  | n + 1, s, sep =>
    match Index s sep with
    | none => [s]
    | some m => s.take m :: splitLoop n (s.drop (m + sep.length)) sep

/-- The pieces of Go `strings.Split(s, "")`: one string per UTF-8 sequence. -/
def explode : Nat → Str → List Str
  | 0, _ => []
  | n + 1, s =>
    match s with
    | [] => []
    | _ :: _ =>
      let w := (DecodeRune s).2
      s.take w :: explode n (s.drop w)

/-- Go `strings.Split(s, sep)`. -/
def Split (s sep : Str) : List Str :=
  if sep = [] then explode s.length s else splitLoop s.length s sep

/-! ## `net/textproto` and `http.Header` -/

/-- An ASCII letter. -/
def isAlpha (c : UInt8) : Bool :=
  (decide (ch 'a' ≤ c) && decide (c ≤ ch 'z')) || (decide (ch 'A' ≤ c) && decide (c ≤ ch 'Z'))

/-- An ASCII digit. -/
def isDigit (c : UInt8) : Bool := decide (ch '0' ≤ c) && decide (c ≤ ch '9')

/-- The token characters of RFC 7230 (`httpguts.IsTokenRune`, and
`validHeaderFieldByte` of `net/textproto`): letters, digits and
``!#$%&'*+-.^_`|~``. -/
def isToken (c : UInt8) : Bool :=
  isAlpha c || isDigit c || (str "!#$%&*+-.^_|~").contains c || c == 0x27 || c == 0x60

/-- The second loop of `canonicalMIMEHeaderKey`: upper case for the first letter
and for a letter after a dash, lower case elsewhere. -/
def canonicalCase : Bool → Str → Str
  | _, [] => []
  | upper, c :: s =>
    let c1 : UInt8 :=
      if upper = true ∧ ch 'a' ≤ c ∧ c ≤ ch 'z' then c - 32
      else if upper = false ∧ ch 'A' ≤ c ∧ c ≤ ch 'Z' then c + 32
      else c
    c1 :: canonicalCase (c1 == ch '-') s

/-- Go `textproto.CanonicalMIMEHeaderKey`: a key made of token bytes is put in
canonical case, any other key is returned unchanged. -/
def CanonicalMIMEHeaderKey (s : Str) : Str :=
  if s.all isToken then canonicalCase true s else s

/-- Go `http.Header`, a `map[string][]string`, as an association list.  The
order of the list is the order in which `range` visits the map. -/
abbrev Header := List (Str × List Str)

/-- The map access `h[k]`: the values stored under `k`, `nil` when absent. -/
def Header.lookup (h : Header) (k : Str) : List Str :=
  match h with
  | [] => []
  | e :: rest => if e.1 = k then e.2 else Header.lookup rest k

/-- The map assignment `h[k] = vs`. -/
def Header.insert (h : Header) (k : Str) (vs : List Str) : Header :=
  match h with
  | [] => [(k, vs)]
  | e :: rest => if e.1 = k then (k, vs) :: rest else e :: Header.insert rest k vs

/-- Go `Header.Get`: the first value stored under the canonical form of `key`,
the empty string when there is none. -/
def Header.Get (h : Header) (key : Str) : Str :=
  match h.lookup (CanonicalMIMEHeaderKey key) with
  | [] => []
  | v :: _ => v

/-- Go `Header.Set`: `h[CanonicalMIMEHeaderKey(key)] = []string{value}`. -/
def Header.Set (h : Header) (key value : Str) : Header :=
  h.insert (CanonicalMIMEHeaderKey key) [value]

/-- Go `Header.Add`: appends `value` to the values stored under the canonical
form of `key`. -/
def Header.Add (h : Header) (key value : Str) : Header :=
  h.insert (CanonicalMIMEHeaderKey key) (h.lookup (CanonicalMIMEHeaderKey key) ++ [value])

/-- The invariant of a header map received by the Go HTTP server or client: a
map has one entry per key, and every key is in canonical form. -/
def Header.WF (h : Header) : Prop :=
  (h.map Prod.fst).Nodup ∧ ∀ e ∈ h, CanonicalMIMEHeaderKey e.1 = e.1

instance (h : Header) : Decidable h.WF := by
  unfold Header.WF; infer_instance

/-! ## `net/url` -/

/-- The fields of Go `url.URL` that the parser fills in, user information and
the raw (escaped) forms apart; the program reads `Scheme` and `Host`. -/
structure URL where
  Scheme : Str := []
  Opaque : Str := []
  Host : Str := []
  Path : Str := []
  RawQuery : Str := []
  Fragment : Str := []
  deriving DecidableEq, Repr

/-- The escaping modes of `net/url`. -/
inductive encoding where
  | encodePath
  | encodePathSegment
  | encodeHost
  | encodeZone
  | encodeUserPassword
  | encodeQueryComponent
  | encodeFragment
  deriving DecidableEq, Repr

/-- Go `shouldEscape` of `net/url`: whether byte `c` must be escaped when it
appears in the part of a URL given by `mode`. -/
def shouldEscape (c : UInt8) (mode : encoding) : Bool :=
  if isAlpha c || isDigit c then false
  else if (mode = encoding.encodeHost ∨ mode = encoding.encodeZone) ∧
      ((str "!$&()*+,;=:[]<>").contains c = true ∨ c = 0x27 ∨ c = 0x22) then false
  else if (str "-_.~").contains c then false
  else if (str "$&+,/:;=?@").contains c ∧
      (mode = encoding.encodePath ∨ mode = encoding.encodePathSegment
        ∨ mode = encoding.encodeUserPassword ∨ mode = encoding.encodeQueryComponent
        ∨ mode = encoding.encodeFragment) then
    match mode with
    | encoding.encodePath => c == ch '?'
    | encoding.encodePathSegment => c == ch '/' || c == ch ';' || c == ch ',' || c == ch '?'
    | encoding.encodeUserPassword => c == ch '@' || c == ch '/' || c == ch '?' || c == ch ':'
    | encoding.encodeQueryComponent => true
    | _ => false
  else if mode = encoding.encodeFragment ∧ (str "!()*").contains c = true then false
  else true

/-- Go `ishex`. -/
def ishex (c : UInt8) : Bool :=
  isDigit c || (decide (ch 'a' ≤ c) && decide (c ≤ ch 'f'))
    || (decide (ch 'A' ≤ c) && decide (c ≤ ch 'F'))

/-- Go `unhex`. -/
def unhex (c : UInt8) : UInt8 :=
  if isDigit c then c - ch '0'
  else if ch 'a' ≤ c ∧ c ≤ ch 'f' then c - ch 'a' + 10
  else if ch 'A' ≤ c ∧ c ≤ ch 'F' then c - ch 'A' + 10
  else 0

/-- Go `unescape` of `net/url`: the string with its `%XX` escapes decoded,
`none` where Go returns an `EscapeError` or `InvalidHostError`. -/
def unescape (mode : encoding) : Str → Option Str
  | [] => some []
  | c :: rest =>
    if c = ch '%' then
      match rest with
      | h1 :: h2 :: rest2 =>
        let v : UInt8 := unhex h1 * 16 + unhex h2
        if !(ishex h1 && ishex h2) then none
        else if mode = encoding.encodeHost ∧ unhex h1 < 8 ∧ ¬ (h1 = ch '2' ∧ h2 = ch '5') then none
        else if mode = encoding.encodeZone ∧ ¬ (h1 = ch '2' ∧ h2 = ch '5') ∧ v ≠ ch ' '
            ∧ shouldEscape v encoding.encodeHost = true then none
        else (unescape mode rest2).map (v :: ·)
      | _ => none
    else if c = ch '+' then
      (unescape mode rest).map
        ((if mode = encoding.encodeQueryComponent then ch ' ' else ch '+') :: ·)
    else if (mode = encoding.encodeHost ∨ mode = encoding.encodeZone) ∧ c < 0x80
        ∧ shouldEscape c encoding.encodeHost = true then
      none
    else (unescape mode rest).map (c :: ·)

/-- Go `stringContainsCTLByte`: a byte below `' '` or the byte `0x7f`. -/
def stringContainsCTLByte (s : Str) : Bool := s.any (fun b => decide (b < ch ' ') || b == 0x7f)

/-- The loop of Go `getScheme` at index `i`, with `s` the bytes from `i` on. -/
def getSchemeLoop (rawURL : Str) : Nat → Str → Option (Str × Str)
  | _, [] => some ([], rawURL)
  | i, c :: s =>
    if isAlpha c then getSchemeLoop rawURL (i + 1) s
    else if isDigit c ∨ c = ch '+' ∨ c = ch '-' ∨ c = ch '.' then
      if i = 0 then some ([], rawURL) else getSchemeLoop rawURL (i + 1) s
    else if c = ch ':' then
      if i = 0 then none else some (rawURL.take i, s)
    else some ([], rawURL)

/-- Go `getScheme`: the scheme and the rest of the URL, `none` for the error
"missing protocol scheme". -/
def getScheme (rawURL : Str) : Option (Str × Str) := getSchemeLoop rawURL 0 rawURL

/-- Go `validOptionalPort`: empty, or a colon followed by digits only. -/
def validOptionalPort (port : Str) : Bool :=
  match port with
  | [] => true
  | c :: digits => c == ch ':' && digits.all isDigit

/-- Go `validUserinfo`. -/
def validUserinfo (s : Str) : Bool :=
  s.all (fun r => isAlpha r || isDigit r || (str "-._:~!$&()*+,;=%@").contains r || r == 0x27)

/-- Go `parseHost`: the host (with an optional port) unescaped, `none` on a
missing `]`, an invalid port or an invalid escape. -/
def parseHost (host : Str) : Option Str :=
  if HasPrefix host (str "[") then
    match LastIndexByte host (ch ']') with
    | none => none
    | some i =>
      if !validOptionalPort (host.drop (i + 1)) then none
      else
        match Index (host.take i) (str "%25") with
        | some zone =>
          match unescape encoding.encodeHost (host.take zone),
            unescape encoding.encodeZone ((host.take i).drop zone),
            unescape encoding.encodeHost (host.drop i) with
          | some host1, some host2, some host3 => some (host1 ++ host2 ++ host3)
          | _, _, _ => none
        | none => unescape encoding.encodeHost host
  else
    match LastIndexByte host (ch ':') with
    | some i =>
      if !validOptionalPort (host.drop i) then none else unescape encoding.encodeHost host
    | none => unescape encoding.encodeHost host

/-- Go `parseAuthority`, for the host: `none` when the host or the user
information before the last `@` is invalid. -/
def parseAuthority (authority : Str) : Option Str :=
  match LastIndexByte authority (ch '@') with
  | none => parseHost authority
  | some i =>
    match parseHost (authority.drop (i + 1)) with
    | none => none
    | some host =>
      let userinfo := authority.take i
      if !validUserinfo userinfo then none
      else if !ContainsByte userinfo (ch ':') then
        (unescape encoding.encodeUserPassword userinfo).map (fun _ => host)
      else
        let c := Cut userinfo (ch ':')
        match unescape encoding.encodeUserPassword c.1,
          unescape encoding.encodeUserPassword c.2.1 with
        | some _, some _ => some host
        | _, _ => none

/-- Go `parse` of `net/url`: parses `rawURL`, as a request URI (an absolute URI
or an absolute path) when `viaRequest` is set; `none` where Go returns an
error. -/
def parse (rawURL : Str) (viaRequest : Bool) : Option URL :=
  if stringContainsCTLByte rawURL then none
  else if rawURL = [] ∧ viaRequest = true then none
  else if rawURL = str "*" then some { Path := str "*" }
  else
    match getScheme rawURL with
    | none => none
    | some (scheme0, rest0) =>
      let scheme := ToLower scheme0
      let q : Str × Str :=
        if HasSuffix rest0 (str "?") = true ∧ CountByte rest0 (ch '?') = 1 then
          (rest0.take (rest0.length - 1), [])
        else ((Cut rest0 (ch '?')).1, (Cut rest0 (ch '?')).2.1)
      let rest := q.1
      let rawQuery := q.2
      if !HasPrefix rest (str "/") ∧ scheme ≠ [] then
        some { Scheme := scheme, Opaque := rest, RawQuery := rawQuery }
      else if !HasPrefix rest (str "/") ∧ viaRequest = true then none
      else if !HasPrefix rest (str "/") ∧ ContainsByte (Cut rest (ch '/')).1 (ch ':') = true then none
      else if (scheme ≠ [] ∨ (viaRequest = false ∧ !HasPrefix rest (str "///")))
          ∧ HasPrefix rest (str "//") = true then
        let auth0 := rest.drop 2
        let authority := match Index auth0 (str "/") with
          | some i => auth0.take i
          | none => auth0
        let rest1 := match Index auth0 (str "/") with
          | some i => auth0.drop i
          | none => []
        match parseAuthority authority, unescape encoding.encodePath rest1 with
        | some host, some path =>
          some { Scheme := scheme, Host := host, Path := path, RawQuery := rawQuery }
        | _, _ => none
      else
        match unescape encoding.encodePath rest with
        | some path => some { Scheme := scheme, Path := path, RawQuery := rawQuery }
        | none => none

/-- Go `url.Parse`: the fragment after the first `#` is cut off and unescaped,
the rest is parsed as a URL reference. -/
def Parse (rawURL : Str) : Option URL :=
  let c := Cut rawURL (ch '#')
  match parse c.1 false with
  | none => none
  | some url =>
    if c.2.1 = [] then some url
    else
      match unescape encoding.encodeFragment c.2.1 with
      | some frag => some { url with Fragment := frag }
      | none => none

/-- Go `url.ParseRequestURI`. -/
def ParseRequestURI (rawURL : Str) : Option URL := parse rawURL true

/-- Go `URL.Hostname`: `u.Host` without a valid port and without the square
brackets of an IPv6 literal. -/
def URL.Hostname (u : URL) : Str :=
  let host : Str :=
    match LastIndexByte u.Host (ch ':') with
    | some colon => if validOptionalPort (u.Host.drop colon) then u.Host.take colon else u.Host
    | none => u.Host
  if HasPrefix host (str "[") ∧ HasSuffix host (str "]") then (host.drop 1).take (host.length - 2)
  else host

/-! ## Configuration (`Config`, the flags, `loadConfig`) -/

/-- The `Config` struct of `main.go`. -/
structure Config where
  AllowedDomains : List Str := []
  RateLimit : Int := 0
  Port : Str := []
  AuthKey : Str := []
  Debug : Bool := false
  InsecureTLS : Bool := false
  DefaultOrigin : Str := []
  FollowRedirects : Bool := false
  deriving DecidableEq, Repr

/-- The values of the command-line flags after `flag.Parse()`: the value given
on the command line, or the default declared in `main.go` when the flag is not
given. -/
structure Flags where
  flagPort : Str := []
  flagDebug : Bool := false
  flagInsecureTLS : Bool := false
  flagDefaultOrigin : Str := str "*"
  flagAuthKey : Str := []
  flagRateLimit : Int := 0
  flagAllowedDomains : Str := []
  flagFollowRedirects : Bool := true
  deriving DecidableEq, Repr

/-- The value of a string of decimal digits, `none` if a byte is not a digit. -/
def parseDigits : Nat → Str → Option Nat
  | acc, [] => some acc
  | acc, c :: s => if isDigit c then parseDigits (acc * 10 + (c - ch '0').toNat) s else none

/-- Go `strconv.Atoi` on a 64-bit platform: an optional sign and at least one
decimal digit, the value within the range of `int`; `none` where Go returns an
error. -/
def Atoi (s : Str) : Option Int :=
  match s with
  | [] => none
  | c :: rest =>
    let neg : Bool := c == ch '-'
    let digits : Str := if c = ch '-' ∨ c = ch '+' then rest else s
    if digits = [] then none
    else
      match parseDigits 0 digits with
      | none => none
      | some n =>
        if neg then (if n ≤ 2 ^ 63 then some (- (n : Int)) else none)
        else (if n < 2 ^ 63 then some (n : Int) else none)

/-- The argument of `rate.NewLimiter(rate.Limit(appConfig.RateLimit)/60.0, 1)`:
the limiter refills `perMinute / 60` tokens per second and holds at most
`burst` tokens. -/
structure Limiter where
  perMinute : Int
  burst : Nat
  deriving DecidableEq, Repr

/-- The body of `loadConfig`, run once: the configuration and the limiter
computed from the parsed flags and the environment (`Getenv` is `os.Getenv`
after `godotenv.Load()`, the empty string for an unset variable).  `appConfig`
starts as the zero `Config` and `limiter` as `nil`; each field of `appConfig`
is assigned on its own, and is given here by the last assignment that runs. -/
def loadConfig (flags : Flags) (Getenv : Str → Str) : Config × Option Limiter :=
  -- allowed domains
  let domains0 := Getenv (str "ALLOWED_DOMAINS")
  let domains := if flags.flagAllowedDomains ≠ [] then flags.flagAllowedDomains else domains0
  let AllowedDomains : List Str := if domains ≠ [] then Split domains (str ",") else []
  -- rate limit
  let rateLimitStr := Getenv (str "RATE_LIMIT")
  let RateLimit : Int :=
    if flags.flagRateLimit > 0 then flags.flagRateLimit
    else if rateLimitStr ≠ [] then
      match Atoi rateLimitStr with
      | some val => val
      | none => 0
    else 0
  -- port
  let Port0 := Getenv (str "PORT")
  let Port1 := if flags.flagPort ≠ [] then flags.flagPort else Port0
  let Port := if Port1 = [] then str "3000" else Port1
  -- auth key
  let AuthKey0 := Getenv (str "AUTH_KEY")
  let AuthKey := if flags.flagAuthKey ≠ [] then flags.flagAuthKey else AuthKey0
  -- debug
  let Debug0 := flags.flagDebug
  let Debug := if Getenv (str "DEBUG") = str "true" then true else Debug0
  -- insecure TLS
  let InsecureTLS0 := flags.flagInsecureTLS
  let InsecureTLS := if Getenv (str "INSECURE_TLS") = str "true" then true else InsecureTLS0
  -- default origin
  let DefaultOrigin0 := flags.flagDefaultOrigin
  let origin := Getenv (str "DEFAULT_ORIGIN")
  let DefaultOrigin := if origin ≠ [] then origin else DefaultOrigin0
  -- follow redirects
  let FollowRedirects0 := flags.flagFollowRedirects
  let FollowRedirects :=
    if Getenv (str "FOLLOW_REDIRECTS") = str "false" then false
    else if Getenv (str "FOLLOW_REDIRECTS") = str "true" then true
    else FollowRedirects0
  -- limiter
  let limiter : Option Limiter :=
    if RateLimit > 0 then some { perMinute := RateLimit, burst := 1 } else none
  ({ AllowedDomains := AllowedDomains, RateLimit := RateLimit, Port := Port, AuthKey := AuthKey,
     Debug := Debug, InsecureTLS := InsecureTLS, DefaultOrigin := DefaultOrigin,
     FollowRedirects := FollowRedirects }, limiter)

/-! ## Requests and responses -/

/-- The parts of the inbound `*http.Request` that the handler reads. `Query k`
is `r.URL.Query().Get(k)`: the first value of query parameter `k`, the empty
string when the parameter is absent. -/
structure Request where
  Method : Str
  Query : Str → Str
  Header : Header
  Body : Str

/-- What the handler has written to the `http.ResponseWriter` when it returns:
the status code, the header map `w.Header()` and the body. -/
structure Response where
  StatusCode : Nat
  Header : Header
  Body : Str
  deriving DecidableEq, Repr

/-- The outbound request handed to `client.Do`: the method, the target URL
string given to `http.NewRequest`, the copied headers and the body stream. -/
structure OutboundRequest where
  Method : Str
  URL : Str
  Header : Header
  Body : Str
  deriving DecidableEq, Repr

/-- The settings of the `http.Client` built for one request: whether
`CheckRedirect` returns `http.ErrUseLastResponse`, and the value of
`InsecureSkipVerify` of the custom transport, `none` when `client.Transport` is
left unset. -/
structure Client where
  CheckRedirectUseLast : Bool
  Transport : Option Bool
  deriving DecidableEq, Repr

/-- The upstream response `resp`. -/
structure UpstreamResponse where
  StatusCode : Nat
  Header : Header
  Body : Str
  deriving DecidableEq, Repr

/-- The world outside the handler: `Do` is the outcome of `client.Do(req)`, an
error text or the upstream response; `newRequestError` is the text of the error
`http.NewRequest` returns for a method and URL it rejects. -/
structure Network where
  Do : Client → OutboundRequest → Except Str UpstreamResponse
  newRequestError : Str → Str → Str

/-- Go `http.Error(w, error, code)`: sets the content type headers, writes the
status code, then the message and a newline.  (Go 1.23 and later also delete
the `Content-Length` and `Content-Encoding` headers, which the handler never
sets.) -/
def Error (w : Header) (error : Str) (code : Nat) : Response :=
  { StatusCode := code,
    Header := (w.Set (str "Content-Type") (str "text/plain; charset=utf-8")).Set
      (str "X-Content-Type-Options") (str "nosniff"),
    Body := error ++ str "\n" }

/-- Go `validMethod` of `net/http`: a non-empty sequence of token characters. -/
def validMethod (method : Str) : Bool := decide (method.length > 0) && method.all isToken

/-- Go `http.NewRequest(method, url, body)`: the request, with an empty header
map, or `none` when the method or the URL is invalid. -/
def NewRequest (method url body : Str) : Option OutboundRequest :=
  let method1 := if method = [] then str "GET" else method
  if !validMethod method1 then none
  else
    match Parse url with
    | none => none
    | some _ => some { Method := method1, URL := url, Header := [], Body := body }

/-! ## `getCORSOrigin` -/

/-- The function `getCORSOrigin` of `main.go`. -/
def getCORSOrigin (appConfig : Config) (r : Request) : Str :=
  if appConfig.DefaultOrigin ≠ str "*" then appConfig.DefaultOrigin
  else if appConfig.AuthKey ≠ [] then
    if r.Header.Get (str "Origin") ≠ [] then r.Header.Get (str "Origin")
    else
      let referer := r.Header.Get (str "Referer")
      if referer ≠ [] then
        match Parse referer with
        | some parsedURL => parsedURL.Scheme ++ str "://" ++ parsedURL.Host
        | none => appConfig.DefaultOrigin
      else appConfig.DefaultOrigin
  else str "*"

/-! ## `handleProxyRequest` -/

/-- The allowlist loop of `handleProxyRequest`: the value of `isAllowed` after
the loop over the remaining `domains`. -/
def isAllowedLoop (hostname : Str) : List Str → Bool
  | [] => false
  | domain :: rest =>
    if domain ≠ [] ∧ HasSuffix hostname (TrimSpace domain) = true then true
    else isAllowedLoop hostname rest

/-- The domain check of `handleProxyRequest`: `true` when the request is not
answered "Domain not allowed". -/
def domainAllowed (AllowedDomains : List Str) (hostname : Str) : Bool :=
  if AllowedDomains.length > 0 then isAllowedLoop hostname AllowedDomains else true

/-- The CORS headers `handleProxyRequest` sets on the response. -/
def setCORSHeaders (w : Header) (corsOrigin : Str) : Header :=
  let w := w.Set (str "Access-Control-Allow-Origin") corsOrigin
  let w := w.Set (str "Access-Control-Allow-Methods")
    (str "GET, POST, PUT, DELETE, PATCH, OPTIONS, HEAD, TRACE, COPY, LINK")
  let w := w.Set (str "Access-Control-Allow-Headers") (str "*")
  if corsOrigin ≠ str "*" then w.Set (str "Access-Control-Allow-Credentials") (str "true") else w

/-- The loop `for _, value := range values { h.Add(name, value) }`. -/
def addValues (h : Header) (name : Str) (values : List Str) : Header :=
  values.foldl (fun acc value => acc.Add name value) h

/-- The loop that copies the headers of the original request to the outbound
request, skipping `Host` and the `Access-Control-` headers. -/
def copyRequestHeaders (reqHeader : Header) (rHeader : Header) : Header :=
  rHeader.foldl (fun acc e =>
    let lowerName := ToLower e.1
    if lowerName = str "host" ∨ HasPrefix lowerName (str "access-control-") = true then acc
    else addValues acc e.1 e.2) reqHeader

/-- The loop that copies the upstream response headers to the response. -/
def copyResponseHeaders (w : Header) (respHeader : Header) : Header :=
  respHeader.foldl (fun acc e => addValues acc e.1 e.2) w

/-- The function `handleProxyRequest` of `main.go`.  `limiter` is `none` when
the global `limiter` is `nil`, and otherwise holds what `limiter.Allow()`
returns for this request; `net` gives the outcome of `client.Do`. -/
def handleProxyRequest (appConfig : Config) (limiter : Option Bool) (net : Network)
    (r : Request) : Response :=
  if appConfig.AuthKey ≠ [] ∧ r.Header.Get (str "X-KochoCORS-Auth-Token") ≠ appConfig.AuthKey then
    Error [] (str "Unauthorized - Invalid or missing X-KochoCORS-Auth-Token header") 401
  else if limiter = some false then
    Error [] (str "Too many requests") 429
  else
    let targetURL := r.Query (str "url")
    if targetURL = [] then
      Error [] (str "Missing url query parameter") 400
    else
      match ParseRequestURI targetURL with
      | none => Error [] (str "Invalid URL provided") 400
      | some parsedURL =>
        if domainAllowed appConfig.AllowedDomains parsedURL.Hostname = false then
          Error [] (str "Domain not allowed: " ++ parsedURL.Hostname) 403
        else
          let corsOrigin := getCORSOrigin appConfig r
          let w := setCORSHeaders [] corsOrigin
          if r.Method = str "OPTIONS" then
            { StatusCode := 200, Header := w, Body := [] }
          else
            match NewRequest r.Method targetURL r.Body with
            | none =>
              Error w (str "Failed to create request to target URL: "
                ++ net.newRequestError r.Method targetURL) 500
            | some req0 =>
              let req := { req0 with Header := copyRequestHeaders req0.Header r.Header }
              let client : Client :=
                { CheckRedirectUseLast := !appConfig.FollowRedirects,
                  Transport :=
                    if parsedURL.Scheme = str "https" ∨ appConfig.InsecureTLS = true then
                      some appConfig.InsecureTLS
                    else none }
              match net.Do client req with
              | .error err => Error w (str "Failed to fetch target URL: " ++ err) 500
              | .ok resp =>
                { StatusCode := resp.StatusCode,
                  Header := copyResponseHeaders w resp.Header,
                  Body := resp.Body }

/-! ## Vocabulary of the specification -/

/-- The values an upstream header map contributes to key `k` of the response:
the values of its entries whose canonical name is `k`. -/
def relayedValues (respHeader : Header) (k : Str) : List Str :=
  (respHeader.filter (fun e => decide (CanonicalMIMEHeaderKey e.1 = k))).flatMap Prod.snd

/-- A header name the sanitizer excludes, in the words of the specification: the
name is `Host`, or starts with `Access-Control-`, letter case ignored. -/
def excludedName (name : Str) : Bool :=
  decide (ToLower name = ToLower (str "Host"))
    || HasPrefix (ToLower name) (ToLower (str "Access-Control-"))

/-- The request passes the auth gate and the rate gate. -/
def passesGates (appConfig : Config) (limiter : Option Bool) (r : Request) : Prop :=
  (appConfig.AuthKey = [] ∨ r.Header.Get (str "X-KochoCORS-Auth-Token") = appConfig.AuthKey)
    ∧ limiter ≠ some false

instance (appConfig : Config) (limiter : Option Bool) (r : Request) :
    Decidable (passesGates appConfig limiter r) := by
  unfold passesGates; infer_instance

/-! ## Concrete inputs used by the examples -/

/-- A request with the given method, `url` query parameter and headers, and an
empty body. -/
def mkRequest (method url : Str) (header : Header) : Request :=
  { Method := method,
    Query := fun k => if k = str "url" then url else [],
    Header := header,
    Body := [] }

/-- A network on which every `client.Do` fails. -/
def unreachable : Network :=
  { Do := fun _ _ => .error (str "dial tcp: connection refused"),
    newRequestError := fun _ _ => [] }

/-- A network on which every `client.Do` returns the given status and headers,
with the body `ok`. -/
def upstream (status : Nat) (header : Header) : Network :=
  { Do := fun _ _ => .ok { StatusCode := status, Header := header, Body := str "ok" },
    newRequestError := fun _ _ => [] }

/-- The configuration `loadConfig` computes without flags and environment. -/
def defaultConfig : Config :=
  { Port := str "3000", DefaultOrigin := str "*", FollowRedirects := true }

/-- The default configuration with the auth secret `s3cret`. -/
def authConfig : Config := { defaultConfig with AuthKey := str "s3cret" }

/-! ## Lemmas on strings and header maps -/

theorem HasSuffix_iff (s t : Str) : HasSuffix s t = true ↔ t <:+ s := by
  unfold HasSuffix
  simp only [Bool.and_eq_true, decide_eq_true_eq]
  constructor
  · rintro ⟨_, h⟩
    rw [← h]
    exact List.drop_suffix _ _
  · rintro ⟨r, rfl⟩
    refine ⟨by simp, ?_⟩
    simp

theorem lookup_insert (h : Header) (k k1 : Str) (vs : List Str) :
    (h.insert k vs).lookup k1 = if k1 = k then vs else h.lookup k1 := by
  induction h with
  | nil =>
    by_cases hk : k1 = k
    · simp [Header.insert, Header.lookup, hk]
    · have hk2 : ¬ k = k1 := fun e => hk e.symm
      simp [Header.insert, Header.lookup, hk, hk2]
  | cons e rest ih =>
    unfold Header.insert
    by_cases he : e.1 = k
    · by_cases hk : k1 = k
      · simp [he, hk, Header.lookup]
      · have hk2 : ¬ k = k1 := fun e => hk e.symm
        simp [he, hk, hk2, Header.lookup]
    · by_cases hk : k1 = k
      · subst hk
        simp [he, Header.lookup, ih]
      · simp only [he, if_false, Header.lookup, ih, hk]

theorem lookup_Set (h : Header) (key value k : Str) :
    (h.Set key value).lookup k
      = if k = CanonicalMIMEHeaderKey key then [value] else h.lookup k := by
  unfold Header.Set
  exact lookup_insert h _ k _

theorem lookup_Add (h : Header) (key value k : Str) :
    (h.Add key value).lookup k
      = if k = CanonicalMIMEHeaderKey key then h.lookup k ++ [value] else h.lookup k := by
  unfold Header.Add
  rw [lookup_insert]
  by_cases hk : k = CanonicalMIMEHeaderKey key
  · simp [hk]
  · simp [hk]

theorem lookup_addValues (values : List Str) (h : Header) (name k : Str) :
    (addValues h name values).lookup k
      = if k = CanonicalMIMEHeaderKey name then h.lookup k ++ values else h.lookup k := by
  unfold addValues
  induction values generalizing h with
  | nil => simp
  | cons v vs ih =>
    rw [List.foldl_cons, ih, lookup_Add]
    by_cases hk : k = CanonicalMIMEHeaderKey name
    · simp [hk]
    · simp [hk]

theorem lookup_copyResponseHeaders (respHeader : Header) (w : Header) (k : Str) :
    (copyResponseHeaders w respHeader).lookup k = w.lookup k ++ relayedValues respHeader k := by
  unfold copyResponseHeaders relayedValues
  induction respHeader generalizing w with
  | nil => simp
  | cons e rest ih =>
    rw [List.foldl_cons, ih, lookup_addValues]
    by_cases hk : k = CanonicalMIMEHeaderKey e.1
    · have hk2 : CanonicalMIMEHeaderKey e.1 = k := hk.symm
      simp [hk2, List.filter_cons]
    · have hk2 : ¬ CanonicalMIMEHeaderKey e.1 = k := fun e => hk e.symm
      simp [hk, hk2, List.filter_cons]


theorem isAllowedLoop_iff (hostname : Str) (domains : List Str) :
    isAllowedLoop hostname domains = true
      ↔ ∃ p ∈ domains, p ≠ [] ∧ TrimSpace p <:+ hostname := by
  induction domains with
  | nil => simp [isAllowedLoop]
  | cons d rest ih =>
    unfold isAllowedLoop
    by_cases hd : d ≠ [] ∧ HasSuffix hostname (TrimSpace d) = true
    · rw [if_pos hd]
      simp only [true_iff]
      exact ⟨d, List.mem_cons_self _ _, hd.1, (HasSuffix_iff _ _).1 hd.2⟩
    · rw [if_neg hd, ih]
      constructor
      · rintro ⟨p, hp, h1, h2⟩
        exact ⟨p, List.mem_cons_of_mem _ hp, h1, h2⟩
      · rintro ⟨p, hp, h1, h2⟩
        rcases List.mem_cons.1 hp with rfl | hp
        · exact absurd ⟨h1, (HasSuffix_iff _ _).2 h2⟩ hd
        · exact ⟨p, hp, h1, h2⟩

theorem domainAllowed_iff (AllowedDomains : List Str) (hostname : Str) :
    domainAllowed AllowedDomains hostname = true
      ↔ AllowedDomains = [] ∨ ∃ p ∈ AllowedDomains, p ≠ [] ∧ TrimSpace p <:+ hostname := by
  unfold domainAllowed
  cases AllowedDomains with
  | nil => simp
  | cons d rest =>
    have hlen : (d :: rest).length > 0 := by simp
    rw [if_pos hlen, isAllowedLoop_iff]
    simp


/-! ## Lemmas on `handleProxyRequest` -/

theorem handle_unauthorized (appConfig : Config) (limiter : Option Bool) (net : Network)
    (r : Request) (hkey : appConfig.AuthKey ≠ [])
    (htok : r.Header.Get (str "X-KochoCORS-Auth-Token") ≠ appConfig.AuthKey) :
    handleProxyRequest appConfig limiter net r
      = Error [] (str "Unauthorized - Invalid or missing X-KochoCORS-Auth-Token header") 401 := by
  unfold handleProxyRequest
  rw [if_pos ⟨hkey, htok⟩]

theorem handle_after_gates (appConfig : Config) (limiter : Option Bool) (net : Network)
    (r : Request) (hg : passesGates appConfig limiter r) :
    handleProxyRequest appConfig limiter net r =
      if r.Query (str "url") = [] then Error [] (str "Missing url query parameter") 400
      else
        match ParseRequestURI (r.Query (str "url")) with
        | none => Error [] (str "Invalid URL provided") 400
        | some parsedURL =>
          if domainAllowed appConfig.AllowedDomains parsedURL.Hostname = false then
            Error [] (str "Domain not allowed: " ++ parsedURL.Hostname) 403
          else if r.Method = str "OPTIONS" then
            { StatusCode := 200, Header := setCORSHeaders [] (getCORSOrigin appConfig r),
              Body := [] }
          else
            match NewRequest r.Method (r.Query (str "url")) r.Body with
            | none =>
              Error (setCORSHeaders [] (getCORSOrigin appConfig r))
                (str "Failed to create request to target URL: "
                  ++ net.newRequestError r.Method (r.Query (str "url"))) 500
            | some req0 =>
              match net.Do
                { CheckRedirectUseLast := !appConfig.FollowRedirects,
                  Transport :=
                    if parsedURL.Scheme = str "https" ∨ appConfig.InsecureTLS = true then
                      some appConfig.InsecureTLS
                    else none }
                { req0 with Header := copyRequestHeaders req0.Header r.Header } with
              | .error err =>
                Error (setCORSHeaders [] (getCORSOrigin appConfig r))
                  (str "Failed to fetch target URL: " ++ err) 500
              | .ok resp =>
                { StatusCode := resp.StatusCode,
                  Header := copyResponseHeaders (setCORSHeaders [] (getCORSOrigin appConfig r))
                    resp.Header,
                  Body := resp.Body } := by
  obtain ⟨hauth, hrate⟩ := hg
  have h1 : ¬ (appConfig.AuthKey ≠ []
      ∧ r.Header.Get (str "X-KochoCORS-Auth-Token") ≠ appConfig.AuthKey) := by
    rintro ⟨ha, hb⟩
    rcases hauth with h | h
    · exact ha h
    · exact hb h
  unfold handleProxyRequest
  rw [if_neg h1, if_neg hrate]

theorem handle_rate_limited (appConfig : Config) (net : Network) (r : Request)
    (hauth : appConfig.AuthKey = []
      ∨ r.Header.Get (str "X-KochoCORS-Auth-Token") = appConfig.AuthKey) :
    handleProxyRequest appConfig (some false) net r = Error [] (str "Too many requests") 429 := by
  have h1 : ¬ (appConfig.AuthKey ≠ []
      ∧ r.Header.Get (str "X-KochoCORS-Auth-Token") ≠ appConfig.AuthKey) := by
    rintro ⟨ha, hb⟩
    rcases hauth with h | h
    · exact ha h
    · exact hb h
  unfold handleProxyRequest
  rw [if_neg h1, if_pos rfl]

theorem Error_StatusCode (w : Header) (msg : Str) (code : Nat) :
    (Error w msg code).StatusCode = code := rfl

/-- Every response of the handler is one of its own error responses, the
preflight response, or the relayed upstream response. -/
theorem handle_cases (appConfig : Config) (limiter : Option Bool) (net : Network)
    (r : Request) :
    (appConfig.AuthKey ≠ [] ∧ r.Header.Get (str "X-KochoCORS-Auth-Token") ≠ appConfig.AuthKey
        ∧ handleProxyRequest appConfig limiter net r
          = Error [] (str "Unauthorized - Invalid or missing X-KochoCORS-Auth-Token header") 401)
    ∨ ((appConfig.AuthKey = []
          ∨ r.Header.Get (str "X-KochoCORS-Auth-Token") = appConfig.AuthKey)
        ∧ ((handleProxyRequest appConfig limiter net r).StatusCode = 429
          ∨ (handleProxyRequest appConfig limiter net r).StatusCode = 400
          ∨ (handleProxyRequest appConfig limiter net r).StatusCode = 403
          ∨ (handleProxyRequest appConfig limiter net r).StatusCode = 200
          ∨ (handleProxyRequest appConfig limiter net r).StatusCode = 500
          ∨ ∃ client req resp, net.Do client req = .ok resp
              ∧ handleProxyRequest appConfig limiter net r
                = { StatusCode := resp.StatusCode,
                    Header := copyResponseHeaders
                      (setCORSHeaders [] (getCORSOrigin appConfig r)) resp.Header,
                    Body := resp.Body })) := by
  by_cases hA : appConfig.AuthKey ≠ []
      ∧ r.Header.Get (str "X-KochoCORS-Auth-Token") ≠ appConfig.AuthKey
  · exact Or.inl ⟨hA.1, hA.2, handle_unauthorized _ _ _ _ hA.1 hA.2⟩
  · have hauth : appConfig.AuthKey = []
        ∨ r.Header.Get (str "X-KochoCORS-Auth-Token") = appConfig.AuthKey := by
      by_cases hk : appConfig.AuthKey = []
      · exact Or.inl hk
      · by_cases ht : r.Header.Get (str "X-KochoCORS-Auth-Token") = appConfig.AuthKey
        · exact Or.inr ht
        · exact absurd ⟨hk, ht⟩ hA
    refine Or.inr ⟨hauth, ?_⟩
    by_cases hrate : limiter = some false
    · subst hrate
      rw [handle_rate_limited _ _ _ hauth]
      exact Or.inl rfl
    · rw [handle_after_gates _ _ _ _ ⟨hauth, hrate⟩]
      split
      · exact Or.inr (Or.inl rfl)
      · split
        · exact Or.inr (Or.inl rfl)
        · split
          · exact Or.inr (Or.inr (Or.inl rfl))
          · split
            · exact Or.inr (Or.inr (Or.inr (Or.inl rfl)))
            · split
              · exact Or.inr (Or.inr (Or.inr (Or.inr (Or.inl rfl))))
              · split
                · exact Or.inr (Or.inr (Or.inr (Or.inr (Or.inl rfl))))
                · rename_i resp hdo
                  exact Or.inr (Or.inr (Or.inr (Or.inr (Or.inr ⟨_, _, resp, hdo, rfl⟩))))

theorem canonical_cors_keys :
    CanonicalMIMEHeaderKey (str "Access-Control-Allow-Origin") = str "Access-Control-Allow-Origin"
    ∧ CanonicalMIMEHeaderKey (str "Access-Control-Allow-Methods")
        = str "Access-Control-Allow-Methods"
    ∧ CanonicalMIMEHeaderKey (str "Access-Control-Allow-Headers")
        = str "Access-Control-Allow-Headers"
    ∧ CanonicalMIMEHeaderKey (str "Access-Control-Allow-Credentials")
        = str "Access-Control-Allow-Credentials" := by
  decide

theorem lookup_setCORSHeaders (corsOrigin k : Str) :
    (setCORSHeaders [] corsOrigin).lookup k =
      if k = str "Access-Control-Allow-Credentials" then
        (if corsOrigin ≠ str "*" then [str "true"] else [])
      else if k = str "Access-Control-Allow-Headers" then [str "*"]
      else if k = str "Access-Control-Allow-Methods" then
        [str "GET, POST, PUT, DELETE, PATCH, OPTIONS, HEAD, TRACE, COPY, LINK"]
      else if k = str "Access-Control-Allow-Origin" then [corsOrigin]
      else [] := by
  obtain ⟨h1, h2, h3, h4⟩ := canonical_cors_keys
  have hne : str "Access-Control-Allow-Credentials" ≠ str "Access-Control-Allow-Headers"
      ∧ str "Access-Control-Allow-Credentials" ≠ str "Access-Control-Allow-Methods"
      ∧ str "Access-Control-Allow-Credentials" ≠ str "Access-Control-Allow-Origin" := by
    decide
  unfold setCORSHeaders
  by_cases ho : corsOrigin ≠ str "*"
  · simp only [if_pos ho, lookup_Set, h1, h2, h3, h4]
    simp only [Header.lookup]
  · simp only [if_neg ho, lookup_Set, h1, h2, h3, h4]
    by_cases hk : k = str "Access-Control-Allow-Credentials"
    · subst hk
      simp only [if_neg hne.1, if_neg hne.2.1, if_neg hne.2.2, Header.lookup, if_true]
    · simp only [if_neg hk, Header.lookup]

theorem lookup_setCORSHeaders_origin (corsOrigin : Str) :
    (setCORSHeaders [] corsOrigin).lookup (str "Access-Control-Allow-Origin") = [corsOrigin] := by
  have hne : str "Access-Control-Allow-Origin" ≠ str "Access-Control-Allow-Credentials"
      ∧ str "Access-Control-Allow-Origin" ≠ str "Access-Control-Allow-Headers"
      ∧ str "Access-Control-Allow-Origin" ≠ str "Access-Control-Allow-Methods" := by
    decide
  rw [lookup_setCORSHeaders, if_neg hne.1, if_neg hne.2.1, if_neg hne.2.2, if_pos rfl]

theorem lookup_setCORSHeaders_credentials (corsOrigin : Str) :
    (setCORSHeaders [] corsOrigin).lookup (str "Access-Control-Allow-Credentials")
      = if corsOrigin ≠ str "*" then [str "true"] else [] := by
  rw [lookup_setCORSHeaders, if_pos rfl]

theorem excludedName_iff (name : Str) :
    excludedName name = true
      ↔ (ToLower name = str "host" ∨ HasPrefix (ToLower name) (str "access-control-") = true) := by
  have h1 : ToLower (str "Host") = str "host" := by decide
  have h2 : ToLower (str "Access-Control-") = str "access-control-" := by decide
  unfold excludedName
  rw [h1, h2]
  simp

theorem lookup_copyRequestHeaders (rHeader : Header) (reqHeader : Header) (k : Str) :
    (copyRequestHeaders reqHeader rHeader).lookup k
      = reqHeader.lookup k
        ++ (rHeader.filter (fun e => !excludedName e.1
              && decide (CanonicalMIMEHeaderKey e.1 = k))).flatMap Prod.snd := by
  unfold copyRequestHeaders
  induction rHeader generalizing reqHeader with
  | nil => simp
  | cons e rest ih =>
    rw [List.foldl_cons, ih]
    by_cases hx : excludedName e.1 = true
    · have hx2 := (excludedName_iff e.1).1 hx
      simp only [if_pos hx2, List.filter_cons, hx, Bool.not_true, Bool.false_and]
      simp
    · have hx2 : ¬ (ToLower e.1 = str "host"
          ∨ HasPrefix (ToLower e.1) (str "access-control-") = true) :=
        fun h => hx ((excludedName_iff e.1).2 h)
      have hx3 : excludedName e.1 = false := by simpa using hx
      simp only [if_neg hx2, lookup_addValues, List.filter_cons, hx3, Bool.not_false,
        Bool.true_and]
      by_cases hk : k = CanonicalMIMEHeaderKey e.1
      · have hk2 : CanonicalMIMEHeaderKey e.1 = k := hk.symm
        simp [hk2]
      · have hk2 : ¬ CanonicalMIMEHeaderKey e.1 = k := fun e => hk e.symm
        simp [hk, hk2]

theorem filter_wellformed (rHeader : Header) (hwf : rHeader.WF) (k : Str) :
    (rHeader.filter (fun e => !excludedName e.1
        && decide (CanonicalMIMEHeaderKey e.1 = k))).flatMap Prod.snd
      = if excludedName k = true then [] else rHeader.lookup k := by
  induction rHeader with
  | nil => simp [Header.lookup]
  | cons e rest ih =>
    obtain ⟨hnd, hcan⟩ := hwf
    have hnd2 : e.1 ∉ rest.map Prod.fst ∧ (rest.map Prod.fst).Nodup := by
      simpa using hnd
    have hwf2 : Header.WF rest :=
      ⟨hnd2.2, fun x hx => hcan x (List.mem_cons_of_mem _ hx)⟩
    have he : CanonicalMIMEHeaderKey e.1 = e.1 := hcan e (List.mem_cons_self _ _)
    have ih2 := ih hwf2
    by_cases hk : e.1 = k
    · subst hk
      have hrest : Header.lookup rest e.1 = [] := by
        have : ∀ (l : Header), e.1 ∉ l.map Prod.fst → Header.lookup l e.1 = [] := by
          intro l
          induction l with
          | nil => intro _; rfl
          | cons x xs ihx =>
            intro hn
            have hn2 : ¬ x.1 = e.1 ∧ e.1 ∉ xs.map Prod.fst := by
              constructor
              · intro hxe
                exact hn (by simp [hxe])
              · intro hm
                exact hn (by simp only [List.map_cons, List.mem_cons]; exact Or.inr hm)
            simp only [Header.lookup, if_neg hn2.1]
            exact ihx hn2.2
        exact this rest hnd2.1
      by_cases hx : excludedName e.1 = true
      · simp only [List.filter_cons, hx, Bool.not_true, Bool.false_and, if_true] at ih2 ⊢
        simpa using ih2
      · have hx3 : excludedName e.1 = false := by simpa using hx
        simp only [hx3, Bool.false_eq_true, if_false] at ih2
        rw [hrest] at ih2
        simp only [List.filter_cons, hx3, he, Bool.not_false, Bool.true_and, decide_True,
          if_true, List.flatMap_cons, Bool.false_eq_true, if_false, Header.lookup, ih2]
        simp
    · have hk2 : ¬ CanonicalMIMEHeaderKey e.1 = k := by rw [he]; exact hk
      simp only [List.filter_cons, hk2, decide_False, Bool.and_false, Bool.false_eq_true,
        if_false, Header.lookup, if_neg hk]
      exact ih2

theorem NewRequest_Header (method url body : Str) (req0 : OutboundRequest)
    (hreq : NewRequest method url body = some req0) : req0.Header = [] := by
  unfold NewRequest at hreq
  simp only at hreq
  by_cases hv : (!validMethod (if method = [] then str "GET" else method)) = true
  · rw [if_pos hv] at hreq
    exact Option.noConfusion hreq
  · rw [if_neg hv] at hreq
    cases hp : Parse url with
    | none =>
      rw [hp] at hreq
      exact Option.noConfusion hreq
    | some u =>
      rw [hp] at hreq
      simp only [Option.some.injEq] at hreq
      rw [← hreq]

/-- A request that passes the gates and whose target parses is answered with the
handler's `403 Domain not allowed` error when the filter rejects the hostname,
whatever the network is. -/
theorem handle_domain_forbidden (appConfig : Config) (limiter : Option Bool) (net : Network)
    (r : Request) (parsedURL : URL) (hg : passesGates appConfig limiter r)
    (hurl : r.Query (str "url") ≠ [])
    (hparse : ParseRequestURI (r.Query (str "url")) = some parsedURL)
    (hdom : domainAllowed appConfig.AllowedDomains parsedURL.Hostname = false) :
    handleProxyRequest appConfig limiter net r
      = Error [] (str "Domain not allowed: " ++ parsedURL.Hostname) 403 := by
  rw [handle_after_gates _ _ _ _ hg, if_neg hurl, hparse]
  simp only [if_pos hdom]

theorem Error_lookup_origin (msg : Str) (code : Nat) :
    (Error [] msg code).Header.lookup (str "Access-Control-Allow-Origin") = [] := by
  show Header.lookup (Header.Set (Header.Set [] (str "Content-Type")
    (str "text/plain; charset=utf-8")) (str "X-Content-Type-Options") (str "nosniff"))
    (str "Access-Control-Allow-Origin") = []
  decide

/-- A request that passes the gates and the filter is never answered with the
handler's `403 Domain not allowed` error. -/
theorem handle_domain_allowed (appConfig : Config) (limiter : Option Bool) (net : Network)
    (r : Request) (parsedURL : URL) (hg : passesGates appConfig limiter r)
    (hurl : r.Query (str "url") ≠ [])
    (hparse : ParseRequestURI (r.Query (str "url")) = some parsedURL)
    (hdom : domainAllowed appConfig.AllowedDomains parsedURL.Hostname = true) (msg : Str) :
    handleProxyRequest appConfig limiter net r ≠ Error [] msg 403 := by
  have hdom2 : ¬ domainAllowed appConfig.AllowedDomains parsedURL.Hostname = false := by
    rw [hdom]; decide
  have horigin : ∀ (R : Response),
      R.Header.lookup (str "Access-Control-Allow-Origin") ≠ [] → R ≠ Error [] msg 403 := by
    intro R hR heq
    apply hR
    rw [heq]
    exact Error_lookup_origin msg 403
  have hstatus : ∀ (R : Response), R.StatusCode ≠ 403 → R ≠ Error [] msg 403 := by
    intro R hR heq
    apply hR
    rw [heq]
    rfl
  rw [handle_after_gates _ _ _ _ hg, if_neg hurl, hparse]
  simp only [if_neg hdom2]
  split
  · apply hstatus
    show (200 : Nat) ≠ 403
    decide
  · split
    · apply hstatus
      show (500 : Nat) ≠ 403
      decide
    · split
      · apply hstatus
        show (500 : Nat) ≠ 403
        decide
      · apply horigin
        show (copyResponseHeaders _ _).lookup _ ≠ []
        rw [lookup_copyResponseHeaders, lookup_setCORSHeaders_origin]
        simp

/-- A request that passes the gates is answered `400 Missing url query parameter`
when the `url` parameter is absent or empty, and `400 Invalid URL provided` when
`url.ParseRequestURI` rejects it, whatever the allowlist and the network are. -/
theorem handle_url_rejected (appConfig : Config) (limiter : Option Bool) (net : Network)
    (r : Request) (hg : passesGates appConfig limiter r) :
    (r.Query (str "url") = [] →
      handleProxyRequest appConfig limiter net r
        = Error [] (str "Missing url query parameter") 400)
    ∧ (r.Query (str "url") ≠ [] → ParseRequestURI (r.Query (str "url")) = none →
      handleProxyRequest appConfig limiter net r
        = Error [] (str "Invalid URL provided") 400) := by
  refine ⟨fun h => ?_, fun h1 h2 => ?_⟩
  · rw [handle_after_gates _ _ _ _ hg, if_pos h]
  · rw [handle_after_gates _ _ _ _ hg, if_neg h1, h2]

/-! ## The claims -/

/-- C1 (as stated, refuted): with the allowlist `["example.com", ""]`, which
`ALLOWED_DOMAINS=example.com,` produces, the hostname `evil.org` ends with the
trimmed form of the second pattern, yet the filter rejects it. -/
theorem allowlist_claim_counterexample :
    ¬ (domainAllowed [str "example.com", str ""] (str "evil.org") = true
        ↔ ([str "example.com", str ""] = ([] : List Str)
            ∨ ∃ p ∈ [str "example.com", str ""], TrimSpace p <:+ str "evil.org")) := by
  intro h
  have hrej : domainAllowed [str "example.com", str ""] (str "evil.org") = false := by decide
  have hacc : domainAllowed [str "example.com", str ""] (str "evil.org") = true :=
    h.2 (Or.inr ⟨str "", by simp, by
      have : TrimSpace (str "") = [] := by decide
      rw [this]; exact List.nil_suffix⟩)
  rw [hrej] at hacc
  exact Bool.noConfusion hacc

/-- C1 (amended): for an allowlist in which no non-empty pattern consists of
white space only, the filter accepts a hostname iff the allowlist is empty or
the hostname ends with the trimmed form of a pattern that is not empty. -/
theorem allowlist_accepts_iff (AllowedDomains : List Str) (hostname : Str)
    (hws : ∀ p ∈ AllowedDomains, p ≠ [] → TrimSpace p ≠ []) :
    domainAllowed AllowedDomains hostname = true
      ↔ AllowedDomains = []
        ∨ ∃ p ∈ AllowedDomains, TrimSpace p ≠ [] ∧ TrimSpace p <:+ hostname := by
  rw [domainAllowed_iff]
  constructor
  · rintro (h | ⟨p, hp, h1, h2⟩)
    · exact Or.inl h
    · exact Or.inr ⟨p, hp, hws p hp h1, h2⟩
  · rintro (h | ⟨p, hp, h1, h2⟩)
    · exact Or.inl h
    · refine Or.inr ⟨p, hp, ?_, h2⟩
      intro hp0
      apply h1
      rw [hp0]
      decide

/-- C1, an instance: the allowlist `[" example.com ", ""]` and the hostname
`api.example.com`. -/
theorem allowlist_accepts_iff_witness :
    (domainAllowed [str " example.com ", str ""] (str "api.example.com") = true
      ↔ [str " example.com ", str ""] = ([] : List Str)
        ∨ ∃ p ∈ [str " example.com ", str ""],
            TrimSpace p ≠ [] ∧ TrimSpace p <:+ str "api.example.com") :=
  allowlist_accepts_iff [str " example.com ", str ""] (str "api.example.com") (by decide)

/-- C2 (failing input): splitting `"example.com, "` on commas leaves the
pattern `" "`; it is not the empty string, its trimmed form is, and so the
filter accepts `evil.org`, which the allowlist without that pattern rejects; a
request for `http://evil.org/` under `ALLOWED_DOMAINS="example.com, "` is
forwarded. -/
theorem whitespace_pattern_accepts_everything :
    Split (str "example.com, ") (str ",") = [str "example.com", str " "]
      ∧ TrimSpace (str " ") = []
      ∧ domainAllowed (Split (str "example.com, ") (str ",")) (str "evil.org") = true
      ∧ domainAllowed [str "example.com"] (str "evil.org") = false
      ∧ (handleProxyRequest
          (loadConfig {} (fun k => if k = str "ALLOWED_DOMAINS" then str "example.com, " else [])).1
          none (upstream 200 []) (mkRequest (str "GET") (str "http://evil.org/") [])).StatusCode
        = 200 := by
  decide

/-- C3 (as stated, refuted): the secret is configured and the request carries
exactly that secret, yet the response has status 401, because the upstream
answered 401 and the handler relays the upstream status. -/
theorem auth_claim_counterexample :
    ¬ ((handleProxyRequest authConfig none (upstream 401 [])
          (mkRequest (str "GET") (str "http://example.com/")
            [(str "X-Kochocors-Auth-Token", [str "s3cret"])])).StatusCode = 401
        ↔ ((mkRequest (str "GET") (str "http://example.com/")
              [(str "X-Kochocors-Auth-Token", [str "s3cret"])]).Header.lookup
              (CanonicalMIMEHeaderKey (str "X-KochoCORS-Auth-Token")) = []
            ∨ (mkRequest (str "GET") (str "http://example.com/")
              [(str "X-Kochocors-Auth-Token", [str "s3cret"])]).Header.Get
              (str "X-KochoCORS-Auth-Token") ≠ authConfig.AuthKey)) := by
  decide

/-- C3 (amended): with a non-empty secret the handler answers with its own
`401 Unauthorized` error iff the token header is absent or differs from the
secret, whatever the limiter, the network and the rest of the request are; with
an empty secret it never gives that answer; and a response with status 401 that
is not that answer is the upstream response relayed, the upstream status being
401. -/
theorem auth_gate (appConfig : Config) (limiter : Option Bool) (net : Network) (r : Request) :
    (appConfig.AuthKey ≠ [] →
      (handleProxyRequest appConfig limiter net r
          = Error [] (str "Unauthorized - Invalid or missing X-KochoCORS-Auth-Token header") 401
        ↔ (r.Header.lookup (CanonicalMIMEHeaderKey (str "X-KochoCORS-Auth-Token")) = []
            ∨ r.Header.Get (str "X-KochoCORS-Auth-Token") ≠ appConfig.AuthKey)))
    ∧ (appConfig.AuthKey = [] →
        handleProxyRequest appConfig limiter net r
          ≠ Error [] (str "Unauthorized - Invalid or missing X-KochoCORS-Auth-Token header") 401)
    ∧ ((handleProxyRequest appConfig limiter net r).StatusCode = 401 →
        handleProxyRequest appConfig limiter net r
            = Error [] (str "Unauthorized - Invalid or missing X-KochoCORS-Auth-Token header") 401
          ∨ ∃ client req resp, net.Do client req = .ok resp ∧ resp.StatusCode = 401
              ∧ (handleProxyRequest appConfig limiter net r).Body = resp.Body) := by
  have key : handleProxyRequest appConfig limiter net r
        = Error [] (str "Unauthorized - Invalid or missing X-KochoCORS-Auth-Token header") 401 →
      appConfig.AuthKey ≠ []
        ∧ r.Header.Get (str "X-KochoCORS-Auth-Token") ≠ appConfig.AuthKey := by
    intro heq
    rcases handle_cases appConfig limiter net r with ⟨h1, h2, _⟩ | ⟨_, hc⟩
    · exact ⟨h1, h2⟩
    · exfalso
      rw [heq] at hc
      rcases hc with h | h | h | h | h | ⟨_, _, resp, _, h⟩
      · exact absurd h (by decide)
      · exact absurd h (by decide)
      · exact absurd h (by decide)
      · exact absurd h (by decide)
      · exact absurd h (by decide)
      · have hl := congrArg (fun x => x.Header.lookup (str "Access-Control-Allow-Origin")) h
        simp only [lookup_copyResponseHeaders, lookup_setCORSHeaders_origin] at hl
        have hl0 : (Error [] (str "Unauthorized - Invalid or missing X-KochoCORS-Auth-Token header")
            401).Header.lookup (str "Access-Control-Allow-Origin") = [] := by decide
        rw [hl0] at hl
        simp at hl
  refine ⟨fun hkey => ⟨fun heq => Or.inr (key heq).2, fun h => ?_⟩, fun hkey heq => (key heq).1 hkey,
    fun hst => ?_⟩
  · apply handle_unauthorized _ _ _ _ hkey
    rcases h with h | h
    · intro hget
      unfold Header.Get at hget
      rw [h] at hget
      exact hkey hget.symm
    · exact h
  · rcases handle_cases appConfig limiter net r with ⟨_, _, h⟩ | ⟨_, hc⟩
    · exact Or.inl h
    · right
      rw [hst] at hc
      rcases hc with h | h | h | h | h | ⟨client, req, resp, hdo, h⟩
      · exact absurd h (by decide)
      · exact absurd h (by decide)
      · exact absurd h (by decide)
      · exact absurd h (by decide)
      · exact absurd h (by decide)
      · refine ⟨client, req, resp, hdo, ?_, ?_⟩
        · rw [h] at hst
          exact hst
        · rw [h]

/-- C3, instances: a wrong token is answered with the handler's 401; without a
secret that answer is never given; a relayed upstream 401. -/
theorem auth_gate_witness :
    (handleProxyRequest authConfig (some true) unreachable
          (mkRequest (str "OPTIONS") (str "http://example.com/")
            [(str "X-Kochocors-Auth-Token", [str "wrong"])])
        = Error [] (str "Unauthorized - Invalid or missing X-KochoCORS-Auth-Token header") 401)
    ∧ (handleProxyRequest defaultConfig none unreachable
          (mkRequest (str "GET") (str "http://example.com/") [])
        ≠ Error [] (str "Unauthorized - Invalid or missing X-KochoCORS-Auth-Token header") 401)
    ∧ (∃ client req resp, (upstream 401 []).Do client req = .ok resp ∧ resp.StatusCode = 401
        ∧ (handleProxyRequest authConfig none (upstream 401 [])
            (mkRequest (str "GET") (str "http://example.com/")
              [(str "X-Kochocors-Auth-Token", [str "s3cret"])])).Body = resp.Body) :=
  ⟨((auth_gate authConfig (some true) unreachable
        (mkRequest (str "OPTIONS") (str "http://example.com/")
          [(str "X-Kochocors-Auth-Token", [str "wrong"])])).1 (by decide)).2
      (Or.inr (by decide)),
    (auth_gate defaultConfig none unreachable
        (mkRequest (str "GET") (str "http://example.com/") [])).2.1 (by decide),
    ((auth_gate authConfig none (upstream 401 [])
        (mkRequest (str "GET") (str "http://example.com/")
          [(str "X-Kochocors-Auth-Token", [str "s3cret"])])).2.2 (by decide)).resolve_left
      (by decide)⟩

/-- C4: `getCORSOrigin` returns `default_origin` whenever it is not `*`; returns
`*` when `default_origin` is `*` and no auth secret is configured, whatever the
`Origin` and `Referer` headers are; and returns the `Origin` header value
verbatim when `default_origin` is `*`, a secret is configured and the `Origin`
header is not empty. -/
theorem getCORSOrigin_policy (appConfig : Config) (r : Request) :
    (appConfig.DefaultOrigin ≠ str "*" →
      getCORSOrigin appConfig r = appConfig.DefaultOrigin)
    ∧ (appConfig.DefaultOrigin = str "*" → appConfig.AuthKey = [] →
        getCORSOrigin appConfig r = str "*")
    ∧ (appConfig.DefaultOrigin = str "*" → appConfig.AuthKey ≠ [] →
        r.Header.Get (str "Origin") ≠ [] →
        getCORSOrigin appConfig r = r.Header.Get (str "Origin")) := by
  refine ⟨fun h => ?_, fun h1 h2 => ?_, fun h1 h2 h3 => ?_⟩
  · unfold getCORSOrigin
    rw [if_pos h]
  · unfold getCORSOrigin
    rw [if_neg (not_not.2 h1), if_neg (not_not.2 h2)]
  · unfold getCORSOrigin
    rw [if_neg (not_not.2 h1), if_pos h2, if_pos h3]

/-- C4, instances: a pinned origin, the wildcard without auth, and the reflected
`Origin` header with auth. -/
theorem getCORSOrigin_policy_witness :
    getCORSOrigin { defaultConfig with DefaultOrigin := str "https://fixed.example" }
        (mkRequest (str "GET") [] [(str "Origin", [str "https://app.example"])])
      = str "https://fixed.example"
    ∧ getCORSOrigin defaultConfig
        (mkRequest (str "GET") []
          [(str "Origin", [str "https://app.example"]),
           (str "Referer", [str "https://app.example/page"])])
      = str "*"
    ∧ getCORSOrigin authConfig
        (mkRequest (str "GET") [] [(str "Origin", [str "https://app.example"])])
      = str "https://app.example" :=
  ⟨(getCORSOrigin_policy { defaultConfig with DefaultOrigin := str "https://fixed.example" }
      (mkRequest (str "GET") [] [(str "Origin", [str "https://app.example"])])).1 (by decide),
    (getCORSOrigin_policy defaultConfig
      (mkRequest (str "GET") []
        [(str "Origin", [str "https://app.example"]),
         (str "Referer", [str "https://app.example/page"])])).2.1 (by decide) (by decide),
    (getCORSOrigin_policy authConfig
      (mkRequest (str "GET") [] [(str "Origin", [str "https://app.example"])])).2.2
      (by decide) (by decide) (by decide)⟩

/-- C5 (as stated, refuted): no auth is configured, so the resolved origin is
`*`, yet the response contains `Access-Control-Allow-Credentials: true`, because
the upstream response carries that header and the relay copies it. -/
theorem credentials_claim_counterexample :
    ¬ (str "true" ∈ (handleProxyRequest defaultConfig none
            (upstream 200 [(str "Access-Control-Allow-Credentials", [str "true"])])
            (mkRequest (str "GET") (str "http://example.com/")
              [(str "Origin", [str "https://app.example"])])).Header.lookup
            (str "Access-Control-Allow-Credentials")
        ↔ getCORSOrigin defaultConfig
            (mkRequest (str "GET") (str "http://example.com/")
              [(str "Origin", [str "https://app.example"])]) ≠ str "*") := by
  decide

/-- C5 (amended): when a request passes the gates and is forwarded and the
upstream answers, the `Access-Control-Allow-Origin` values of the response are
the resolved origin followed by the values the upstream response carries under
that name, and its `Access-Control-Allow-Credentials` values are `true`, present
iff the resolved origin is not `*`, followed by the values the upstream response
carries under that name.  So `Access-Control-Allow-Credentials: true` is in the
response iff the resolved origin is not `*` or the upstream response has it. -/
theorem credentials_header (appConfig : Config) (limiter : Option Bool) (net : Network)
    (r : Request) (parsedURL : URL) (req0 : OutboundRequest) (resp : UpstreamResponse)
    (hg : passesGates appConfig limiter r)
    (hurl : r.Query (str "url") ≠ [])
    (hparse : ParseRequestURI (r.Query (str "url")) = some parsedURL)
    (hdom : domainAllowed appConfig.AllowedDomains parsedURL.Hostname = true)
    (hmeth : r.Method ≠ str "OPTIONS")
    (hreq : NewRequest r.Method (r.Query (str "url")) r.Body = some req0)
    (hdo : net.Do
        { CheckRedirectUseLast := !appConfig.FollowRedirects,
          Transport :=
            if parsedURL.Scheme = str "https" ∨ appConfig.InsecureTLS = true then
              some appConfig.InsecureTLS
            else none }
        { req0 with Header := copyRequestHeaders req0.Header r.Header } = .ok resp) :
    (handleProxyRequest appConfig limiter net r).Header.lookup (str "Access-Control-Allow-Origin")
        = getCORSOrigin appConfig r
          :: relayedValues resp.Header (str "Access-Control-Allow-Origin")
    ∧ (handleProxyRequest appConfig limiter net r).Header.lookup
          (str "Access-Control-Allow-Credentials")
        = (if getCORSOrigin appConfig r ≠ str "*" then [str "true"] else [])
          ++ relayedValues resp.Header (str "Access-Control-Allow-Credentials")
    ∧ (str "true" ∈ (handleProxyRequest appConfig limiter net r).Header.lookup
          (str "Access-Control-Allow-Credentials")
        ↔ getCORSOrigin appConfig r ≠ str "*"
          ∨ str "true" ∈ relayedValues resp.Header (str "Access-Control-Allow-Credentials")) := by
  have hdom2 : ¬ domainAllowed appConfig.AllowedDomains parsedURL.Hostname = false := by
    rw [hdom]; decide
  have hres : handleProxyRequest appConfig limiter net r
      = { StatusCode := resp.StatusCode,
          Header := copyResponseHeaders (setCORSHeaders [] (getCORSOrigin appConfig r))
            resp.Header,
          Body := resp.Body } := by
    rw [handle_after_gates _ _ _ _ hg, if_neg hurl, hparse]
    simp only [if_neg hdom2, if_neg hmeth, hreq, hdo]
  rw [hres]
  have hO : (copyResponseHeaders (setCORSHeaders [] (getCORSOrigin appConfig r))
        resp.Header).lookup (str "Access-Control-Allow-Origin")
      = getCORSOrigin appConfig r
        :: relayedValues resp.Header (str "Access-Control-Allow-Origin") := by
    rw [lookup_copyResponseHeaders, lookup_setCORSHeaders_origin]
    rfl
  have hC : (copyResponseHeaders (setCORSHeaders [] (getCORSOrigin appConfig r))
        resp.Header).lookup (str "Access-Control-Allow-Credentials")
      = (if getCORSOrigin appConfig r ≠ str "*" then [str "true"] else [])
        ++ relayedValues resp.Header (str "Access-Control-Allow-Credentials") := by
    rw [lookup_copyResponseHeaders, lookup_setCORSHeaders_credentials]
  refine ⟨hO, hC, ?_⟩
  show _ ∈ (copyResponseHeaders _ _).lookup _ ↔ _
  rw [hC, List.mem_append]
  by_cases ho : getCORSOrigin appConfig r ≠ str "*"
  · simp [ho]
  · simp [ho]

/-- C5, instances: the example of the specification, with and without auth, on an
upstream response without CORS headers. -/
theorem credentials_header_witness :
    ((handleProxyRequest authConfig none (upstream 200 [])
        (mkRequest (str "GET") (str "http://example.com/")
          [(str "X-Kochocors-Auth-Token", [str "s3cret"]),
           (str "Origin", [str "https://app.example"])])).Header.lookup
        (str "Access-Control-Allow-Origin") = [str "https://app.example"]
      ∧ (handleProxyRequest authConfig none (upstream 200 [])
        (mkRequest (str "GET") (str "http://example.com/")
          [(str "X-Kochocors-Auth-Token", [str "s3cret"]),
           (str "Origin", [str "https://app.example"])])).Header.lookup
        (str "Access-Control-Allow-Credentials") = [str "true"])
    ∧ ((handleProxyRequest defaultConfig none (upstream 200 [])
        (mkRequest (str "GET") (str "http://example.com/")
          [(str "Origin", [str "https://app.example"])])).Header.lookup
        (str "Access-Control-Allow-Origin") = [str "*"]
      ∧ (handleProxyRequest defaultConfig none (upstream 200 [])
        (mkRequest (str "GET") (str "http://example.com/")
          [(str "Origin", [str "https://app.example"])])).Header.lookup
        (str "Access-Control-Allow-Credentials") = []) :=
  ⟨⟨(credentials_header authConfig none (upstream 200 [])
        (mkRequest (str "GET") (str "http://example.com/")
          [(str "X-Kochocors-Auth-Token", [str "s3cret"]),
           (str "Origin", [str "https://app.example"])])
        { Scheme := str "http", Host := str "example.com", Path := str "/" }
        { Method := str "GET", URL := str "http://example.com/", Header := [], Body := [] }
        { StatusCode := 200, Header := [], Body := str "ok" }
        (by decide) (by decide) (by decide) (by decide) (by decide) (by decide)
        (by rfl)).1.trans (by decide),
      (credentials_header authConfig none (upstream 200 [])
        (mkRequest (str "GET") (str "http://example.com/")
          [(str "X-Kochocors-Auth-Token", [str "s3cret"]),
           (str "Origin", [str "https://app.example"])])
        { Scheme := str "http", Host := str "example.com", Path := str "/" }
        { Method := str "GET", URL := str "http://example.com/", Header := [], Body := [] }
        { StatusCode := 200, Header := [], Body := str "ok" }
        (by decide) (by decide) (by decide) (by decide) (by decide) (by decide)
        (by rfl)).2.1.trans (by decide)⟩,
    ⟨(credentials_header defaultConfig none (upstream 200 [])
        (mkRequest (str "GET") (str "http://example.com/")
          [(str "Origin", [str "https://app.example"])])
        { Scheme := str "http", Host := str "example.com", Path := str "/" }
        { Method := str "GET", URL := str "http://example.com/", Header := [], Body := [] }
        { StatusCode := 200, Header := [], Body := str "ok" }
        (by decide) (by decide) (by decide) (by decide) (by decide) (by decide)
        (by rfl)).1.trans (by decide),
      (credentials_header defaultConfig none (upstream 200 [])
        (mkRequest (str "GET") (str "http://example.com/")
          [(str "Origin", [str "https://app.example"])])
        { Scheme := str "http", Host := str "example.com", Path := str "/" }
        { Method := str "GET", URL := str "http://example.com/", Header := [], Body := [] }
        { StatusCode := 200, Header := [], Body := str "ok" }
        (by decide) (by decide) (by decide) (by decide) (by decide) (by decide)
        (by rfl)).2.1.trans (by decide)⟩⟩

/-- C7: the headers of the outbound request, which `http.NewRequest` creates
with an empty header map, are exactly the inbound entries whose name is not
`Host` and does not start with `Access-Control-`, letter case ignored: under
every name the outbound map holds no value when the name is excluded, and
otherwise the inbound values of that name, all of them and in their order.  The
inbound map is a header map as the Go server builds it: one entry per name, the
names in canonical form. -/
theorem header_sanitizer (method url body : Str) (req0 : OutboundRequest) (rHeader : Header)
    (hwf : rHeader.WF) (hreq : NewRequest method url body = some req0) (k : Str) :
    (copyRequestHeaders req0.Header rHeader).lookup k
      = if excludedName k = true then [] else rHeader.lookup k := by
  rw [NewRequest_Header method url body req0 hreq, lookup_copyRequestHeaders,
    filter_wellformed rHeader hwf k]
  rfl

/-- C7, an instance: the inbound headers `Host`, `Access-Control-Request-Method`
and `X-Custom`. -/
theorem header_sanitizer_witness :
    (copyRequestHeaders [] [(str "Host", [str "proxy.local"]),
        (str "Access-Control-Request-Method", [str "GET"]),
        (str "X-Custom", [str "v", str "w"])]).lookup (str "X-Custom") = [str "v", str "w"]
    ∧ (copyRequestHeaders [] [(str "Host", [str "proxy.local"]),
        (str "Access-Control-Request-Method", [str "GET"]),
        (str "X-Custom", [str "v", str "w"])]).lookup (str "Host") = []
    ∧ (copyRequestHeaders [] [(str "Host", [str "proxy.local"]),
        (str "Access-Control-Request-Method", [str "GET"]),
        (str "X-Custom", [str "v", str "w"])]).lookup (str "Access-Control-Request-Method")
        = [] :=
  ⟨(header_sanitizer (str "GET") (str "http://example.com/") []
      { Method := str "GET", URL := str "http://example.com/", Header := [], Body := [] }
      [(str "Host", [str "proxy.local"]), (str "Access-Control-Request-Method", [str "GET"]),
        (str "X-Custom", [str "v", str "w"])]
      (by decide) (by decide) (str "X-Custom")).trans (by decide),
    (header_sanitizer (str "GET") (str "http://example.com/") []
      { Method := str "GET", URL := str "http://example.com/", Header := [], Body := [] }
      [(str "Host", [str "proxy.local"]), (str "Access-Control-Request-Method", [str "GET"]),
        (str "X-Custom", [str "v", str "w"])]
      (by decide) (by decide) (str "Host")).trans (by decide),
    (header_sanitizer (str "GET") (str "http://example.com/") []
      { Method := str "GET", URL := str "http://example.com/", Header := [], Body := [] }
      [(str "Host", [str "proxy.local"]), (str "Access-Control-Request-Method", [str "GET"]),
        (str "X-Custom", [str "v", str "w"])]
      (by decide) (by decide) (str "Access-Control-Request-Method")).trans (by decide)⟩

/-- C8 (failing input): the `url` values `/data` (a bare path) and `mailto:x` (a
scheme without a host) are not absolute URLs with a scheme and a host, yet
`url.ParseRequestURI` accepts both and the handler does not answer
`400 Invalid URL provided`.  Under a non-empty allowlist both reach the allowlist
stage and are answered 403; with the default configuration an `OPTIONS` request
for `/data` reaches the CORS stage and is answered 200 with the CORS headers;
and a `GET` request for `/data` reaches the forwarding stage: on every network
the response is decided by the outcome of `client.Do` on an outbound request
with the URL `/data`. -/
theorem bare_path_passes_url_validator (net : Network) :
    (ParseRequestURI (str "/data")).map (fun u => (u.Scheme, u.Host)) = some ([], [])
    ∧ (ParseRequestURI (str "mailto:x")).map (fun u => (u.Scheme, u.Host))
        = some (str "mailto", [])
    ∧ handleProxyRequest { defaultConfig with AllowedDomains := [str "example.com"] } none
          unreachable (mkRequest (str "GET") (str "/data") [])
        = Error [] (str "Domain not allowed: ") 403
    ∧ handleProxyRequest { defaultConfig with AllowedDomains := [str "example.com"] } none
          unreachable (mkRequest (str "GET") (str "mailto:x") [])
        = Error [] (str "Domain not allowed: ") 403
    ∧ handleProxyRequest defaultConfig none unreachable
          (mkRequest (str "OPTIONS") (str "/data") [])
        = { StatusCode := 200, Header := setCORSHeaders [] (str "*"), Body := [] }
    ∧ handleProxyRequest defaultConfig none net (mkRequest (str "GET") (str "/data") [])
        = (match net.Do { CheckRedirectUseLast := false, Transport := none }
              { Method := str "GET", URL := str "/data", Header := [], Body := [] } with
            | .error err =>
              Error (setCORSHeaders [] (str "*")) (str "Failed to fetch target URL: " ++ err) 500
            | .ok resp =>
              { StatusCode := resp.StatusCode,
                Header := copyResponseHeaders (setCORSHeaders [] (str "*")) resp.Header,
                Body := resp.Body }) := by
  refine ⟨by decide, by decide, by decide, by decide, by decide, ?_⟩
  have hg : passesGates defaultConfig none (mkRequest (str "GET") (str "/data") []) := by
    decide
  have hq : (mkRequest (str "GET") (str "/data") []).Query (str "url") = str "/data" := by
    decide
  have hurl : str "/data" ≠ [] := by decide
  have hparse : ParseRequestURI (str "/data") = some { Path := str "/data" } := by decide
  have hdom : ¬ domainAllowed defaultConfig.AllowedDomains
      ({ Path := str "/data" } : URL).Hostname = false := by decide
  have hmeth : ¬ (mkRequest (str "GET") (str "/data") []).Method = str "OPTIONS" := by decide
  have hreq : NewRequest (mkRequest (str "GET") (str "/data") []).Method (str "/data")
      (mkRequest (str "GET") (str "/data") []).Body
      = some { Method := str "GET", URL := str "/data", Header := [], Body := [] } := by
    decide
  have horigin : getCORSOrigin defaultConfig (mkRequest (str "GET") (str "/data") [])
      = str "*" := by decide
  rw [handle_after_gates _ _ _ _ hg, hq, if_neg hurl, hparse]
  simp only [if_neg hdom, if_neg hmeth, hreq, horigin]
  rfl

/-- C9 (failing input): the flag `--default-origin=https://a.example` is given
and the environment sets `DEFAULT_ORIGIN=https://b.example`; the resolved CORS
origin is the one of the environment.  With `--port=8080` and `PORT=9` the
resolved port is the one of the flag. -/
theorem environment_overrides_flag :
    (loadConfig { flagDefaultOrigin := str "https://a.example", flagPort := str "8080" }
        (fun k =>
          if k = str "DEFAULT_ORIGIN" then str "https://b.example"
          else if k = str "PORT" then str "9" else [])).1.DefaultOrigin
      = str "https://b.example"
    ∧ (loadConfig { flagDefaultOrigin := str "https://a.example", flagPort := str "8080" }
        (fun k =>
          if k = str "DEFAULT_ORIGIN" then str "https://b.example"
          else if k = str "PORT" then str "9" else [])).1.Port
      = str "8080" := by
  decide

/-- C10 (failing input): with `default_origin` `*`, a secret configured, no
`Origin` header and the header `Referer: /x`, which `url.Parse` accepts with an
empty scheme and an empty host, `getCORSOrigin` returns `://`. -/
theorem referer_without_host_gives_empty_origin :
    (Parse (str "/x")).map (fun u => (u.Scheme, u.Host)) = some ([], [])
    ∧ getCORSOrigin authConfig (mkRequest (str "GET") [] [(str "Referer", [str "/x"])])
        = str "://" := by
  decide


end KochoCORS
